import Mathlib

/-!
Verification of the virtool-cli event-sourced reference repository.

The development shallowly embeds the data model, the projector fold, the
repository facade, the NCBI record cache and the GenBank record handling of
the repository, and proves the specified properties about them.

Conventions of the embedding:
* Entity UUIDs and timestamps are represented as natural numbers; the code
  never computes with their internal structure, it only compares them for
  equality, so any infinite type with decidable equality is a faithful model.
* Python sets of strings are represented as duplicate-free lists built with
  an insert-if-absent operation; the properties proved about them are
  membership properties, which are insensitive to ordering.
* Python dictionaries are represented as insertion-ordered association lists.
-/

set_option autoImplicit false

/-- Decidable equality on `Except` results, so that facade outcomes can be
evaluated on concrete inputs. -/
instance exceptDecEq {ε α : Type} [DecidableEq ε] [DecidableEq α] :
    DecidableEq (Except ε α) := fun x y =>
  match x, y with
  | .ok a, .ok b =>
    if h : a = b then .isTrue (by rw [h])
    else .isFalse fun hh => h (Except.ok.inj hh)
  | .error a, .error b =>
    if h : a = b then .isTrue (by rw [h])
    else .isFalse fun hh => h (Except.error.inj hh)
  | .ok a, .error b => .isFalse fun hh => Except.noConfusion hh
  | .error a, .ok b => .isFalse fun hh => Except.noConfusion hh

namespace Virtool

/-- Molecule strandedness (values observed in the tests: single). -/
inductive Strandedness where
  | single
  | double
deriving DecidableEq, Repr

/-- Molecule type (values observed in the tests: RNA). -/
inductive MolType where
  | rna
  | dna
deriving DecidableEq, Repr

/-- Molecule topology (values observed in the tests: linear). -/
inductive Topology where
  | linear
  | circular
deriving DecidableEq, Repr

/-- Modelled from the spec: `virtool_cli.utils.models.Molecule` is not under
src; the spec describes it as molecule metadata consisting of strandedness,
molecule type and topology. -/
structure Molecule where
  strandedness : Strandedness
  type : MolType
  topology : Topology
deriving DecidableEq, Repr

/-- `OTUSchema` from `virtool_cli/ref/schema.py`: molecular metadata plus the
segments contained in this OTU, a mapping of segment name to required flag
(embedded as an insertion-ordered association list). -/
structure OTUSchema where
  molecule : Molecule
  segments : List (String × Bool)
deriving DecidableEq, Repr

/-- The `multipartite` computed field of `OTUSchema`
(`virtool_cli/ref/schema.py`, lines 16-21): it is computed from `segments`
on demand and is not a stored field of the model. -/
def OTUSchema.multipartite (s : OTUSchema) : Bool :=
  if s.segments.length < 2 then
    false
  else
    true

/-- Isolate source-name types, per the spec data model:
`type ∈ {isolate, strain, clone, refseq}`. -/
inductive IsolateNameType where
  | isolate
  | strain
  | clone
  | refseq
deriving DecidableEq, Repr

/-- An isolate's natural key within one OTU: a source type paired with a
source name value. -/
structure IsolateName where
  type : IsolateNameType
  value : String
deriving DecidableEq, Repr

/-- Sequence aggregate: one nucleotide sequence record attached to an
isolate. Modelled from the spec: `EventSourcedRepoSequence` of
`virtool_cli/ref/resources.py` is not under src. -/
structure RepoSequence where
  id : Nat
  accession : String
  definition : String
  legacy_id : Option String
  segment : String
  sequence : String
deriving DecidableEq, Repr

/-- Isolate aggregate. Modelled from the spec: `EventSourcedRepoIsolate` of
`virtool_cli/ref/resources.py` is not under src. -/
structure RepoIsolate where
  id : Nat
  legacy_id : Option String
  name : IsolateName
  sequences : List RepoSequence
deriving DecidableEq, Repr

/-- OTU aggregate. Modelled from the spec: `EventSourcedRepoOTU` of
`virtool_cli/ref/resources.py` is not under src. `accessions` and
`blocked_accessions` are intentionally absent: the spec says they are
derived, never stored. -/
structure RepoOTU where
  id : Nat
  acronym : String
  legacy_id : Option String
  name : String
  taxid : Nat
  otuSchema : Option OTUSchema
  excluded_accessions : List String
  isolates : List RepoIsolate
deriving DecidableEq, Repr

/-- Insert a string into a list with set semantics: a no-op when the element
is already present (models Python `set.add`). -/
def insertSet (a : String) (l : List String) : List String :=
  if a ∈ l then l else l ++ [a]

/-- Derived accession set of an OTU, per the spec: the union of every
contained sequence's accession, recomputed from the aggregate on demand. -/
def RepoOTU.accessions (otu : RepoOTU) : List String :=
  otu.isolates.flatMap fun iso => iso.sequences.map fun sq => sq.accession

/-- Derived blocked-accession set of an OTU, per the spec:
`accessions ∪ excluded_accessions`. -/
def RepoOTU.blocked_accessions (otu : RepoOTU) : List String :=
  otu.accessions ++ otu.excluded_accessions

/-- Modelled from the spec: `get_isolate_id_by_name` resolves an isolate by
its `(type, value)` natural key within one OTU. -/
def RepoOTU.get_isolate_id_by_name (otu : RepoOTU) (n : IsolateName) :
    Option Nat :=
  (otu.isolates.find? fun iso => iso.name = n).map fun iso => iso.id

/-! ## Events and the projector

Modelled from the spec: `virtool_cli/ref/repo.py` (the event store, the
projector and the repository facade) is not under src; the definitions
below follow the spec's data model (section 3), event-file shape
(section 6) and projector contract (section 4.2), with the event files of
`tests/test_repo.py` as concrete oracles. -/

/-- The target entities the event applies to: foreign keys into the
aggregates. The metadata event targets no entity, so all keys are
optional. -/
structure EventQuery where
  otu_id : Option Nat
  isolate_id : Option Nat
  sequence_id : Option Nat
deriving DecidableEq, Repr

/-- Event payload, one shape per event kind (closed set). The repository
metadata record written at creation occupies event id 1. -/
inductive EventData where
  | createRepo (data_type : String) (name : String) (organism : String)
  | createOTU (acronym : String) (legacy_id : Option String) (name : String)
      (otuSchema : Option OTUSchema) (taxid : Nat)
  | createIsolate (legacy_id : Option String) (name : IsolateName)
  | createSequence (accession : String) (definition : String)
      (legacy_id : Option String) (segment : String) (sequence : String)
  | excludeAccession (accession : String)
deriving DecidableEq, Repr

/-- A persisted event: monotonic log id, timestamp, target query and
payload. -/
structure Event where
  id : Nat
  timestamp : Nat
  query : EventQuery
  data : EventData
deriving DecidableEq, Repr

/-- The timestamp-free part of an event: everything the projector's fold may
read. -/
structure EventCore where
  id : Nat
  query : EventQuery
  data : EventData
deriving DecidableEq, Repr

/-- Strip the timestamp off an event. -/
def Event.core (e : Event) : EventCore :=
  { id := e.id, query := e.query, data := e.data }

/-- Repository metadata written by the id-1 event. -/
structure RepoMeta where
  data_type : String
  name : String
  organism : String
deriving DecidableEq, Repr

/-- The projected current state: repository metadata plus the OTU
aggregates in creation order. -/
structure RepoState where
  meta : Option RepoMeta
  otus : List RepoOTU
deriving DecidableEq, Repr

/-- The empty state the fold starts from. -/
def emptyState : RepoState := { meta := none, otus := [] }

/-- Integrity errors raised during replay; each names the offending
event id. -/
inductive ProjError where
  | otuNotFound (eventId : Nat) (otu_id : Nat)
  | isolateNotFound (eventId : Nat) (isolate_id : Nat)
  | malformedQuery (eventId : Nat)
deriving DecidableEq, Repr

/-- Look up an OTU aggregate by UUID in the projected state (the first hit,
as in `List.find?`). -/
def findOTU : List RepoOTU → Nat → Option RepoOTU
  | [], _ => none
  | o :: rest, oid => if o.id = oid then some o else findOTU rest oid

/-- Rewrite the first OTU with the given UUID using `f`; fail when no OTU
has that UUID. -/
def updateOTU (eid : Nat) (otus : List RepoOTU) (oid : Nat)
    (f : RepoOTU → Except ProjError RepoOTU) :
    Except ProjError (List RepoOTU) :=
  match otus with
  | [] => .error (.otuNotFound eid oid)
  | o :: rest =>
    if o.id = oid then
      match f o with
      | .ok o2 => .ok (o2 :: rest)
      | .error e => .error e
    else
      match updateOTU eid rest oid f with
      | .ok rest2 => .ok (o :: rest2)
      | .error e => .error e

/-- Rewrite the first isolate with the given UUID inside one OTU using `f`;
fail when no isolate has that UUID. -/
def updateIsolate (eid : Nat) (isolates : List RepoIsolate) (iid : Nat)
    (f : RepoIsolate → RepoIsolate) :
    Except ProjError (List RepoIsolate) :=
  match isolates with
  | [] => .error (.isolateNotFound eid iid)
  | iso :: rest =>
    if iso.id = iid then
      .ok (f iso :: rest)
    else
      match updateIsolate eid rest iid f with
      | .ok rest2 => .ok (iso :: rest2)
      | .error e => .error e

/-- The projector's fold function, one case per event kind (spec,
section 4.2). Creation events key the new aggregate by the id in the
event's query; a reference to a missing parent is an integrity error. -/
def applyEvent (s : RepoState) (e : Event) : Except ProjError RepoState :=
  match e.data with
  | .createRepo data_type name organism =>
    .ok { s with meta := some { data_type, name, organism } }
  | .createOTU acronym legacy_id name otuSchema taxid =>
    match e.query.otu_id with
    | none => .error (.malformedQuery e.id)
    | some oid =>
      .ok { s with
        otus := s.otus ++
          [{ id := oid, acronym, legacy_id, name, taxid, otuSchema,
             excluded_accessions := [], isolates := [] }] }
  | .createIsolate legacy_id name =>
    match e.query.otu_id, e.query.isolate_id with
    | some oid, some iid =>
      match updateOTU e.id s.otus oid (fun o =>
          .ok { o with isolates :=
            o.isolates ++ [{ id := iid, legacy_id, name, sequences := [] }] }) with
      | .ok otus2 => .ok { s with otus := otus2 }
      | .error er => .error er
    | _, _ => .error (.malformedQuery e.id)
  | .createSequence accession definition legacy_id segment sequence =>
    match e.query.otu_id, e.query.isolate_id, e.query.sequence_id with
    | some oid, some iid, some sid =>
      match updateOTU e.id s.otus oid (fun o =>
          match updateIsolate e.id o.isolates iid (fun iso =>
              { iso with sequences :=
                iso.sequences ++
                  [{ id := sid, accession, definition, legacy_id, segment,
                     sequence }] }) with
          | .ok isolates2 => .ok { o with isolates := isolates2 }
          | .error er => .error er) with
      | .ok otus2 => .ok { s with otus := otus2 }
      | .error er => .error er
    | _, _, _ => .error (.malformedQuery e.id)
  | .excludeAccession accession =>
    match e.query.otu_id with
    | none => .error (.malformedQuery e.id)
    | some oid =>
      match updateOTU e.id s.otus oid (fun o =>
          .ok { o with excluded_accessions :=
            (insertSet accession o.excluded_accessions) }) with
      | .ok otus2 => .ok { s with otus := otus2 }
      | .error er => .error er

/-- Full-state reconstruction: fold the ordered event sequence from a given
state, stopping at the first integrity error. -/
def projectFrom (s : RepoState) : List Event → Except ProjError RepoState
  | [] => .ok s
  | e :: es =>
    match applyEvent s e with
    | .ok s2 => projectFrom s2 es
    | .error er => .error er

/-- Replay the whole log from the empty state. -/
def projectAll (events : List Event) : Except ProjError RepoState :=
  projectFrom emptyState events

/-! ## Repository facade

Modelled from the spec, section 4.3: the facade validates preconditions
against the projected snapshot, then constructs and appends an event.
UUID minting is modelled by passing the freshly minted id as an explicit
argument: the facade treats minted ids as opaque. -/

/-- A repository is identified with its persisted, ordered event log. -/
structure Repo where
  events : List Event
deriving DecidableEq, Repr

/-- The highest event id currently persisted. -/
def Repo.lastId (r : Repo) : Nat :=
  r.events.foldl (fun m e => max m e.id) 0

/-- The projected snapshot the facade validates against. -/
def Repo.state (r : Repo) : Except ProjError RepoState :=
  projectAll r.events

/-- Append one event, assigning the next sequential id. -/
def Repo.appendEvent (r : Repo) (ts : Nat) (q : EventQuery) (d : EventData) :
    Repo :=
  let e : Event := { id := r.lastId + 1, timestamp := ts, query := q, data := d }
  { events := r.events ++ [e] }

/-- Caller-visible failures of the facade; validation and not-found errors
identify the offending value. -/
inductive RepoError where
  | otuNameExists (name : String)
  | otuLegacyIdExists (legacy_id : String)
  | otuNotFound (otu_id : Nat)
  | isolateNotFound (isolate_id : Nat)
  | integrity (e : ProjError)
deriving DecidableEq, Repr

/-- Initialize a fresh repository: the log holds only the id-1 metadata
record. -/
def Repo.new (ts : Nat) (data_type : String) (name : String)
    (organism : String) : Repo :=
  let e : Event :=
    { id := 1
      timestamp := ts
      query := { otu_id := none, isolate_id := none, sequence_id := none }
      data := .createRepo data_type name organism }
  { events := [e] }

/-- `create_otu`: validate uniqueness of the name and of the non-null
legacy id against the current snapshot, then append `CreateOTU`. The name
check runs first, mirroring the error precedence of the tests. -/
def Repo.create_otu (r : Repo) (ts : Nat) (otu_uuid : Nat) (acronym : String)
    (legacy_id : Option String) (name : String) (otuSchema : Option OTUSchema)
    (taxid : Nat) : Except RepoError (Repo × RepoOTU) :=
  match r.state with
  | .error e => .error (.integrity e)
  | .ok s =>
    if s.otus.any fun o => o.name = name then
      .error (.otuNameExists name)
    else
      match legacy_id with
      | some l =>
        if s.otus.any fun o => o.legacy_id = some l then
          .error (.otuLegacyIdExists l)
        else
          .ok (r.appendEvent ts
              { otu_id := some otu_uuid, isolate_id := none,
                sequence_id := none }
              (.createOTU acronym legacy_id name otuSchema taxid),
            { id := otu_uuid, acronym, legacy_id, name, taxid, otuSchema,
              excluded_accessions := [], isolates := [] })
      | none =>
        .ok (r.appendEvent ts
            { otu_id := some otu_uuid, isolate_id := none,
              sequence_id := none }
            (.createOTU acronym legacy_id name otuSchema taxid),
          { id := otu_uuid, acronym, legacy_id, name, taxid, otuSchema,
            excluded_accessions := [], isolates := [] })

/-- `create_isolate`: fail with NotFound when the parent OTU does not
resolve; otherwise append `CreateIsolate` scoped to
`{otu_id, isolate_id}`. -/
def Repo.create_isolate (r : Repo) (ts : Nat) (isolate_uuid : Nat)
    (otu_id : Nat) (legacy_id : Option String) (source_name : String)
    (source_type : IsolateNameType) : Except RepoError (Repo × RepoIsolate) :=
  match r.state with
  | .error e => .error (.integrity e)
  | .ok s =>
    match findOTU s.otus otu_id with
    | none => .error (.otuNotFound otu_id)
    | some _ =>
      .ok (r.appendEvent ts
          { otu_id := some otu_id, isolate_id := some isolate_uuid,
            sequence_id := none }
          (.createIsolate legacy_id
            { type := source_type, value := source_name }),
        { id := isolate_uuid, legacy_id,
          name := { type := source_type, value := source_name },
          sequences := [] })

/-- `create_sequence`: fail with NotFound when either parent is absent;
otherwise append `CreateSequence` scoped to
`{otu_id, isolate_id, sequence_id}`. -/
def Repo.create_sequence (r : Repo) (ts : Nat) (sequence_uuid : Nat)
    (otu_id : Nat) (isolate_id : Nat) (accession : String)
    (definition : String) (legacy_id : Option String) (segment : String)
    (sequence : String) : Except RepoError (Repo × RepoSequence) :=
  match r.state with
  | .error e => .error (.integrity e)
  | .ok s =>
    match findOTU s.otus otu_id with
    | none => .error (.otuNotFound otu_id)
    | some o =>
      match o.isolates.find? fun iso => iso.id = isolate_id with
      | none => .error (.isolateNotFound isolate_id)
      | some _ =>
        .ok (r.appendEvent ts
            { otu_id := some otu_id, isolate_id := some isolate_id,
              sequence_id := some sequence_uuid }
            (.createSequence accession definition legacy_id segment sequence),
          { id := sequence_uuid, accession, definition, legacy_id, segment,
            sequence })

/-- `exclude_accession`: fail with NotFound when the OTU is absent;
otherwise append `ExcludeAccession`. -/
def Repo.exclude_accession (r : Repo) (ts : Nat) (otu_id : Nat)
    (accession : String) : Except RepoError Repo :=
  match r.state with
  | .error e => .error (.integrity e)
  | .ok s =>
    match findOTU s.otus otu_id with
    | none => .error (.otuNotFound otu_id)
    | some _ =>
      .ok (r.appendEvent ts
        { otu_id := some otu_id, isolate_id := none, sequence_id := none }
        (.excludeAccession accession))

/-- `get_otu`: read accessor backed by a full replay of the log. -/
def Repo.get_otu (r : Repo) (otu_id : Nat) : Option RepoOTU :=
  match r.state with
  | .error _ => none
  | .ok s => findOTU s.otus otu_id

/-- One mutating facade call, with any ids it mints carried as data. -/
inductive MutOp where
  | createOTU (otu_uuid : Nat) (acronym : String) (legacy_id : Option String)
      (name : String) (otuSchema : Option OTUSchema) (taxid : Nat)
  | createIsolate (isolate_uuid : Nat) (otu_id : Nat)
      (legacy_id : Option String) (source_name : String)
      (source_type : IsolateNameType)
  | createSequence (sequence_uuid : Nat) (otu_id : Nat) (isolate_id : Nat)
      (accession : String) (definition : String) (legacy_id : Option String)
      (segment : String) (sequence : String)
  | excludeAccession (otu_id : Nat) (accession : String)
deriving DecidableEq, Repr

/-- Dispatch one mutating call against the repository. -/
def runOp (r : Repo) (ts : Nat) : MutOp → Except RepoError Repo
  | .createOTU u acr lid name sch taxid =>
    match r.create_otu ts u acr lid name sch taxid with
    | .ok (r2, _) => .ok r2
    | .error e => .error e
  | .createIsolate u oid lid sname stype =>
    match r.create_isolate ts u oid lid sname stype with
    | .ok (r2, _) => .ok r2
    | .error e => .error e
  | .createSequence u oid iid acc defn lid seg seq =>
    match r.create_sequence ts u oid iid acc defn lid seg seq with
    | .ok (r2, _) => .ok r2
    | .error e => .error e
  | .excludeAccession oid acc =>
    match r.exclude_accession ts oid acc with
    | .ok r2 => .ok r2
    | .error e => .error e

/-- A failed call surfaces its error to the caller and leaves the
repository exactly as it was. -/
def applyOp (r : Repo) (ts : Nat) (op : MutOp) : Repo :=
  match runOp r ts op with
  | .ok r2 => r2
  | .error _ => r

/-- Run a timestamped sequence of mutating calls, keeping the repository
unchanged across failed calls and counting the successful ones. -/
def runOps (r : Repo) : List (Nat × MutOp) → Repo × Nat
  | [] => (r, 0)
  | (ts, op) :: rest =>
    match runOp r ts op with
    | .ok r2 =>
      let p := runOps r2 rest
      (p.1, p.2 + 1)
    | .error _ => runOps r rest

/-! ## NCBI record cache (`virtool_cli/ncbi/cache.py`)

One cache directory is embedded as an association list from file name to
file contents; `open(path, "w")` replaces the contents at a key or creates
the key. -/

/-- A directory of the cache: file name paired with raw contents. -/
abbrev CacheDir := List (String × String)

/-- Write `contents` at `key`, replacing an existing file (the semantics of
opening a file in write mode). -/
def fsWrite (fs : CacheDir) (key : String) (contents : String) : CacheDir :=
  if fs.any fun p => p.1 = key then
    fs.map fun p => if p.1 = key then (key, contents) else p
  else
    fs ++ [(key, contents)]

/-- Errors the cache can raise. -/
inductive CacheError where
  | fileExists
deriving DecidableEq, Repr

/-- `NCBICache.cache_nuccore`: raise `FileExistsError` when
`overwrite_enabled` is set and the target path exists, else write the
records at `<filestem>.json` in the nuccore directory. -/
def cache_nuccore (nuccore : CacheDir) (records : String) (filestem : String)
    (overwrite_enabled : Bool) : Except CacheError CacheDir :=
  let path := filestem ++ ".json"
  if overwrite_enabled ∧ nuccore.any fun p => p.1 = path then
    .error .fileExists
  else
    .ok (fsWrite nuccore path records)

/-- `NCBICache.cache_taxonomy`: raise `FileExistsError` when
`overwrite_enabled` is set and the target path exists, else write the
record at `<taxid>.json` in the taxonomy directory. -/
def cache_taxonomy (taxonomy : CacheDir) (record : String) (taxon_id : Nat)
    (overwrite_enabled : Bool) : Except CacheError CacheDir :=
  let path := toString taxon_id ++ ".json"
  if overwrite_enabled ∧ taxonomy.any fun p => p.1 = path then
    .error .fileExists
  else
    .ok (fsWrite taxonomy path record)

/-! ## NCBI Nucleotide model validation (`virtool_cli/ncbi/model.py`)

Raw sequence text is embedded as a list of Unicode codepoints, so the
Python `str.upper` transformation on the ASCII nucleotide alphabet is the
codepoint map sending 97..122 to 65..90. -/

/-- Python `str.upper` on one codepoint, restricted to the ASCII range the
records use. -/
def upCode (c : Nat) : Nat :=
  if 97 ≤ c ∧ c ≤ 122 then c - 32 else c

/-- Python `str.upper` over a whole string of codepoints. -/
def pyUpper (s : List Nat) : List Nat :=
  s.map upCode

/-- A qualifier of a GenBank feature (`GBQualifier_name` /
`GBQualifier_value`). -/
structure GBQualifier where
  name : String
  value : String
deriving DecidableEq, Repr

/-- A GenBank feature: key plus qualifiers (`GBFeature_key` /
`GBFeature_quals`). -/
structure GBFeature where
  key : String
  quals : List GBQualifier
deriving DecidableEq, Repr

/-- The raw GenBank payload the validator consumes: the `GBSeq_*` keys the
model reads. -/
structure RawGBSeq where
  accession : String
  definition : String
  sequence : List Nat
  featureTable : List GBFeature
  comment : Option String
deriving DecidableEq, Repr

/-- `NCBISource` of `virtool_cli/ncbi/model.py`: the qualifiers of the
`source` feature; optional fields default to the empty string. -/
structure NCBISource where
  taxid : Nat
  organism : String
  mol_type : String
  isolate : String
  host : String
  segment : String
  strain : String
  clone : String
deriving DecidableEq, Repr

/-- `NCBINuccore` of `virtool_cli/ncbi/model.py`. -/
structure NCBINuccore where
  accession : String
  definition : String
  sequence : List Nat
  source : NCBISource
  comment : String
deriving DecidableEq, Repr

/-- Build the qualifier dictionary of a feature: for a repeated qualifier
name the last value wins, as in the Python dict comprehension. -/
def qualValue (quals : List GBQualifier) (n : String) : Option String :=
  (quals.reverse.find? fun q => q.name = n).map fun q => q.value

/-- Python `str.split(sep)` at the character level. -/
def splitChar (sep : Char) : List Char → List (List Char)
  | [] => [[]]
  | c :: rest =>
    let r := splitChar sep rest
    if c = sep then
      [] :: r
    else
      match r with
      | [] => [[c]]
      | h :: t => (c :: h) :: t

/-- The numeric value of an ASCII digit. -/
def digitVal (c : Char) : Option Nat :=
  if 48 ≤ c.toNat ∧ c.toNat ≤ 57 then some (c.toNat - 48) else none

/-- Python `int()` on a non-empty all-digit string. -/
def digitsToNat (l : List Char) : Option Nat :=
  match l with
  | [] => none
  | _ =>
    l.foldl
      (fun acc c =>
        match acc, digitVal c with
        | some n, some d => some (n * 10 + d)
        | _, _ => none)
      (some 0)

/-- The `db_xref_to_taxid` validator: `int(raw.split(":")[1])`. -/
def parseTaxid (raw : String) : Option Nat :=
  match (splitChar ':' raw.toList).get? 1 with
  | none => none
  | some t => digitsToNat t

/-- The `create_source` validator: find the feature with key `source` and
validate its qualifiers as an `NCBISource`; fail when no source feature or
a required qualifier is missing. -/
def create_source (raw : List GBFeature) : Option NCBISource :=
  match raw.find? fun feature => feature.key = "source" with
  | none => none
  | some feature =>
    match qualValue feature.quals "db_xref" with
    | none => none
    | some xref =>
      match parseTaxid xref with
      | none => none
      | some taxid =>
        match qualValue feature.quals "organism" with
        | none => none
        | some organism =>
          match qualValue feature.quals "mol_type" with
          | none => none
          | some mol_type =>
            some { taxid, organism, mol_type,
                   isolate := (qualValue feature.quals "isolate").getD "",
                   host := (qualValue feature.quals "host").getD "",
                   segment := (qualValue feature.quals "segment").getD "",
                   strain := (qualValue feature.quals "strain").getD "",
                   clone := (qualValue feature.quals "clone").getD "" }

/-- Model validation of `NCBINuccore`: build the source from the feature
table, upper-case the sequence with the `to_uppercase` validator, default
the comment. -/
def parseNuccore (raw : RawGBSeq) : Option NCBINuccore :=
  match create_source raw.featureTable with
  | none => none
  | some source =>
    some { accession := raw.accession
           definition := raw.definition
           sequence := pyUpper raw.sequence
           source := source
           comment := raw.comment.getD "" }

/-! ## GenBank record handling of `virtool_cli/ref/otu.py`

The record shape is modelled from the spec, section 6: the core consumes a
genbank-style record
`{accession, definition, sequence, source{segment, isolate|strain|clone,
organism, ...}, refseq}`. A source field that was never set in the input is
`none` (it is then absent from the pydantic `model_fields_set`); a set
field carries its string value. -/

/-- Source table of a GenBank record as `ref/otu.py` consumes it. -/
structure GBSource where
  isolate : Option String
  strain : Option String
  clone : Option String
  segment : String
  organism : String
deriving DecidableEq, Repr

/-- A validated GenBank record as `ref/otu.py` consumes it. -/
structure NCBIGenbank where
  accession : String
  definition : String
  sequence : String
  refseq : Bool
  source : GBSource
deriving DecidableEq, Repr

/-- `_get_isolate_name` (`virtool_cli/ref/otu.py`, lines 311-342): when the
source sets any of the isolate, strain or clone fields, return the first
set one in enum order; otherwise a RefSeq record is named by its accession
and any other record yields no isolate name. -/
def get_isolate_name (r : NCBIGenbank) : Option IsolateName :=
  if r.source.isolate.isSome ∨ r.source.strain.isSome ∨ r.source.clone.isSome
  then
    match r.source.isolate with
    | some v => some { type := .isolate, value := v }
    | none =>
      match r.source.strain with
      | some v => some { type := .strain, value := v }
      | none =>
        match r.source.clone with
        | some v => some { type := .clone, value := v }
        | none => none
  else if r.refseq then
    some { type := .refseq, value := r.accession }
  else
    none

/-- Replace the value at a key of an insertion-ordered dictionary, or
append the binding when the key is absent. -/
def upsertKV (l : List (String × NCBIGenbank)) (k : String) (v : NCBIGenbank) :
    List (String × NCBIGenbank) :=
  if l.any fun p => p.1 = k then
    l.map fun p => if p.1 = k then (k, v) else p
  else
    l ++ [(k, v)]

/-- The bins of `group_genbank_records_by_isolate`: isolate name mapped to
a dictionary keyed by accession. -/
abbrev RecordBins := List (IsolateName × List (String × NCBIGenbank))

/-- Insert one record into the bin of its isolate name, creating the bin on
first use (the `defaultdict(dict)` update). -/
def upsertBin (bins : RecordBins) (n : IsolateName) (r : NCBIGenbank) :
    RecordBins :=
  if bins.any fun b => b.1 = n then
    bins.map fun b => if b.1 = n then (n, upsertKV b.2 r.accession r) else b
  else
    bins ++ [(n, [(r.accession, r)])]

/-- `group_genbank_records_by_isolate` (`virtool_cli/ref/otu.py`,
lines 251-261): index records by derived isolate name, silently dropping a
record that yields no isolate name. -/
def group_genbank_records_by_isolate (records : List NCBIGenbank) :
    RecordBins :=
  records.foldl
    (fun bins r =>
      match get_isolate_name r with
      | none => bins
      | some n => upsertBin bins n r)
    []

/-- Remove later duplicates from a list of accessions (`set(accessions)`
determinized to first-occurrence order; only membership matters to the
properties proved below). -/
def dedup : List String → List String
  | [] => []
  | a :: rest => a :: ((dedup rest).filter fun b => b ≠ a)

/-- The inner loop of `_file_and_create_sequences` over one accession bin:
skip an accession already held by the OTU snapshot, otherwise create the
sequence and record its accession. -/
def createSeqLoop (repo : Repo) (ts : Nat) (supply : Nat) (otu : RepoOTU)
    (isolate_id : Nat) (bin : List (String × NCBIGenbank))
    (acc : List String) : Except RepoError (Repo × Nat × List String) :=
  match bin with
  | [] => .ok (repo, supply, acc)
  | (a, rec) :: rest =>
    if a ∈ otu.accessions then
      createSeqLoop repo ts supply otu isolate_id rest acc
    else
      match repo.create_sequence ts supply otu.id isolate_id rec.accession
          rec.definition none rec.source.segment rec.sequence with
      | .error e => .error e
      | .ok (repo2, sq) =>
        createSeqLoop repo2 ts (supply + 1) otu isolate_id rest
          (acc ++ [sq.accession])

/-- The isolate-resolution step at the head of each bin iteration of
`_file_and_create_sequences`: resolve the isolate by natural key, creating
it when absent. -/
def resolveIsolate (repo : Repo) (ts supply : Nat) (otu : RepoOTU)
    (n : IsolateName) : Except RepoError (Repo × Nat × Nat) :=
  match otu.get_isolate_id_by_name n with
  | some iid => .ok (repo, supply, iid)
  | none =>
    match repo.create_isolate ts supply otu.id none n.value n.type with
    | .error e => .error e
    | .ok (repo2, iso) => .ok (repo2, supply + 1, iso.id)

/-- The outer loop of `_file_and_create_sequences` over the isolate bins:
resolve the isolate by natural key, then process the bin's accessions. -/
def createBinsLoop (repo : Repo) (ts : Nat) (supply : Nat) (otu : RepoOTU)
    (bins : RecordBins) (acc : List String) :
    Except RepoError (Repo × Nat × List String) :=
  match bins with
  | [] => .ok (repo, supply, acc)
  | (n, bin) :: rest =>
    match resolveIsolate repo ts supply otu n with
    | .error e => .error e
    | .ok (repo2, supply2, iid) =>
      match createSeqLoop repo2 ts supply2 otu iid bin acc with
      | .error e => .error e
      | .ok (repo3, supply3, acc2) =>
        createBinsLoop repo3 ts supply3 otu rest acc2

/-- Python string comparison: lexicographic on codepoints. -/
def lexLe : List Char → List Char → Bool
  | [], _ => true
  | _ :: _, [] => false
  | a :: as, b :: bs => if a = b then lexLe as bs else decide (a.toNat < b.toNat)

/-- Insert a string into a sorted list, comparing codepoint-wise. -/
def sortIns (a : String) : List String → List String
  | [] => [a]
  | b :: rest =>
    if lexLe a.toList b.toList then a :: b :: rest else b :: sortIns a rest

/-- Insertion sort on strings, modelling Python `sorted`. -/
def sortStrings : List String → List String
  | [] => []
  | a :: rest => sortIns a (sortStrings rest)

/-- `_file_and_create_sequences` (`virtool_cli/ref/otu.py`, lines 264-308):
bin the records by isolate, create any missing isolate and every sequence
whose accession the OTU snapshot does not yet hold, and return the sorted
list of created accessions. -/
def file_and_create_sequences (repo : Repo) (ts : Nat) (supply : Nat)
    (otu : RepoOTU) (records : List NCBIGenbank) :
    Except RepoError (Repo × List String) :=
  match createBinsLoop repo ts supply otu
      (group_genbank_records_by_isolate records) [] with
  | .error e => .error e
  | .ok (repo2, _, acc) => .ok (repo2, sortStrings acc)

/-- The `fetch_list` local of `add_sequences`: the requested accessions
outside the OTU's blocked set. -/
def fetch_list (otu : RepoOTU) (accessions : List String) : List String :=
  (dedup accessions).filter fun a => ¬ a ∈ otu.blocked_accessions

/-- `add_sequences` (`virtool_cli/ref/otu.py`, lines 142-172): fetch only
the accessions outside the OTU's blocked set, then file and create
sequences from the fetched records. The NCBI client is abstracted as the
function `fetchFn` from a requested accession list to the records
returned. -/
def add_sequences (repo : Repo) (ts : Nat) (supply : Nat) (otu : RepoOTU)
    (accessions : List String)
    (fetchFn : List String → List NCBIGenbank) :
    Except RepoError (Repo × List String) :=
  if (fetch_list otu accessions).isEmpty then
    .ok (repo, [])
  else
    file_and_create_sequences repo ts supply otu
      (fetchFn (fetch_list otu accessions))

/-- Soundness of an isolate index with respect to a record list: every
binned entry is one of the records, keyed by its accession, under its
derived isolate name. -/
def binsSound (records : List NCBIGenbank) (bins : RecordBins) : Prop :=
  ∀ n bin, (n, bin) ∈ bins → ∀ a rec, (a, rec) ∈ bin →
    rec ∈ records ∧ rec.accession = a ∧ get_isolate_name rec = some n

/-! ## Concrete test fixtures

Concrete values mirroring the scenario of `tests/test_repo.py`: a repository
holding one OTU with one isolate, one sequence and one excluded accession.
They are used to evaluate the proved properties on explicit inputs. -/

/-- The log of the fixture repository. -/
def wEvents : List Event :=
  [{ id := 1
     timestamp := 10
     query := { otu_id := none, isolate_id := none, sequence_id := none }
     data := .createRepo "genome" "Generic Viruses" "virus" },
   { id := 2
     timestamp := 11
     query := { otu_id := some 100, isolate_id := none, sequence_id := none }
     data := .createOTU "TMV" (some "abcd1234") "Tobacco mosaic virus" none
       12242 },
   { id := 3
     timestamp := 12
     query := { otu_id := some 100, isolate_id := some 200,
                sequence_id := none }
     data := .createIsolate none { type := .isolate, value := "A" } },
   { id := 4
     timestamp := 13
     query := { otu_id := some 100, isolate_id := some 200,
                sequence_id := some 300 }
     data := .createSequence "TMVABC" "TMV" none "RNA" "ACGT" },
   { id := 5
     timestamp := 14
     query := { otu_id := some 100, isolate_id := none, sequence_id := none }
     data := .excludeAccession "GROK" }]

/-- The same log with every timestamp rewritten. -/
def wEventsLater : List Event :=
  wEvents.map fun e => { e with timestamp := e.timestamp + 1000 }

/-- The fixture repository. -/
def wRepo : Repo := { events := wEvents }

/-- The projected state of the fixture repository. -/
def wState : RepoState :=
  { meta := some { data_type := "genome", name := "Generic Viruses",
                   organism := "virus" }
    otus := [{ id := 100
               acronym := "TMV"
               legacy_id := some "abcd1234"
               name := "Tobacco mosaic virus"
               taxid := 12242
               otuSchema := none
               excluded_accessions := ["GROK"]
               isolates := [{ id := 200
                              legacy_id := none
                              name := { type := .isolate, value := "A" }
                              sequences := [{ id := 300
                                              accession := "TMVABC"
                                              definition := "TMV"
                                              legacy_id := none
                                              segment := "RNA"
                                              sequence := "ACGT" }] }] }] }

/-- The single OTU aggregate of the fixture state. -/
def wOTU : RepoOTU :=
  { id := 100
    acronym := "TMV"
    legacy_id := some "abcd1234"
    name := "Tobacco mosaic virus"
    taxid := 12242
    otuSchema := none
    excluded_accessions := ["GROK"]
    isolates := [{ id := 200
                   legacy_id := none
                   name := { type := .isolate, value := "A" }
                   sequences := [{ id := 300
                                   accession := "TMVABC"
                                   definition := "TMV"
                                   legacy_id := none
                                   segment := "RNA"
                                   sequence := "ACGT" }] }] }

/-- The fixture repository after excluding one fresh accession. -/
def wRepoEx1 : Repo :=
  match wRepo.exclude_accession 30 100 "TOK" with
  | .ok r => r
  | .error _ => wRepo

/-- The fixture repository after excluding the same accession twice. -/
def wRepoEx2 : Repo :=
  match wRepoEx1.exclude_accession 31 100 "TOK" with
  | .ok r => r
  | .error _ => wRepoEx1

/-- A GenBank record carrying an isolate source name. -/
def wRecord : NCBIGenbank :=
  { accession := "N1"
    definition := "TMV segment"
    sequence := "ACGT"
    refseq := false
    source := { isolate := some "A", strain := none, clone := none,
                segment := "RNA", organism := "Tobacco mosaic virus" } }

/-- A fetch client returning the fixture record exactly when its accession
was requested. -/
def wFetch (l : List String) : List NCBIGenbank :=
  if "N1" ∈ l then [wRecord] else []

/-- The fixture repository after importing one new accession. -/
def wRepoAdd : Repo :=
  match add_sequences wRepo 20 500 wOTU ["TMVABC", "GROK", "N1"] wFetch with
  | .ok (r, _) => r
  | .error _ => wRepo

/-- A GenBank record with no source name fields and no RefSeq flag. -/
def wNameless : NCBIGenbank :=
  { accession := "P1"
    definition := "unnamed"
    sequence := "ACGT"
    refseq := false
    source := { isolate := none, strain := none, clone := none,
                segment := "", organism := "x" } }

/-- A RefSeq GenBank record with no source name fields. -/
def wRefseqRec : NCBIGenbank :=
  { accession := "NC_1"
    definition := "refseq"
    sequence := "ACGT"
    refseq := true
    source := { isolate := none, strain := none, clone := none,
                segment := "", organism := "x" } }

/-- A nuccore cache directory already holding the key `tm.json`. -/
def wNuccoreDir : CacheDir := [("tm.json", "old-records")]

/-- A taxonomy cache directory already holding the key `12242.json`. -/
def wTaxonomyDir : CacheDir := [("12242.json", "old-taxonomy")]

/-- A raw GenBank payload with a lower-case sequence (codepoints of
`acgt`). -/
def wRawGB : RawGBSeq :=
  { accession := "TMVABC"
    definition := "TMV"
    sequence := [97, 99, 103, 116]
    featureTable :=
      [{ key := "source"
         quals := [{ name := "db_xref", value := "taxon:12242" },
                   { name := "organism", value := "Tobacco mosaic virus" },
                   { name := "mol_type", value := "genomic RNA" },
                   { name := "isolate", value := "A" }] }]
    comment := none }

/-- The validated record of the raw fixture payload. -/
def wNuccore : NCBINuccore :=
  { accession := "TMVABC"
    definition := "TMV"
    sequence := [65, 67, 71, 84]
    source := { taxid := 12242, organism := "Tobacco mosaic virus",
                mol_type := "genomic RNA", isolate := "A", host := "",
                segment := "", strain := "", clone := "" }
    comment := "" }

/-! ## Lemmas and verified properties -/

/-- Writing over an existing key leaves exactly the new contents at that
key. -/
theorem find_map_overwrite (k v : String) (fs : CacheDir)
    (h : (fs.any fun p => p.1 = k) = true) :
    ((fs.map fun p => if p.1 = k then (k, v) else p).find?
      fun p => p.1 = k) = some (k, v) := by
  induction fs with
  | nil => simp at h
  | cons p rest ih =>
    by_cases hk : p.1 = k
    · simp [hk]
    · have h2 : (rest.any fun p => p.1 = k) = true := by
        simpa [List.any_cons, hk] using h
      simp only [List.map_cons, if_neg hk]
      rw [List.find?_cons_of_neg _ (by simp [hk])]
      exact ih h2

/-- `fsWrite` on an existing key overwrites it in place. -/
theorem fsWrite_find_of_exists (fs : CacheDir) (k v : String)
    (h : (fs.any fun p => p.1 = k) = true) :
    ((fsWrite fs k v).find? fun p => p.1 = k) = some (k, v) := by
  rw [fsWrite, if_pos h]
  exact find_map_overwrite k v fs h

/-- C7: on a cache write whose key already exists, both `cache_nuccore` and
`cache_taxonomy` raise `FileExistsError` precisely when `overwrite_enabled`
is true, and silently overwrite the existing file (the key afterwards holds
the new contents) when `overwrite_enabled` is false. -/
theorem cache_overwrite_policy (nuc tax : CacheDir) (records record : String)
    (stem : String) (tid : Nat)
    (hn : (nuc.any fun p => p.1 = stem ++ ".json") = true)
    (ht : (tax.any fun p => p.1 = toString tid ++ ".json") = true) :
    cache_nuccore nuc records stem true = .error .fileExists ∧
    (∃ d, cache_nuccore nuc records stem false = .ok d ∧
      (d.find? fun p => p.1 = stem ++ ".json") =
        some (stem ++ ".json", records)) ∧
    cache_taxonomy tax record tid true = .error .fileExists ∧
    (∃ d, cache_taxonomy tax record tid false = .ok d ∧
      (d.find? fun p => p.1 = toString tid ++ ".json") =
        some (toString tid ++ ".json", record)) := by
  refine ⟨?_, ⟨fsWrite nuc (stem ++ ".json") records, ?_, ?_⟩, ?_,
    ⟨fsWrite tax (toString tid ++ ".json") record, ?_, ?_⟩⟩
  · rw [cache_nuccore, if_pos ⟨rfl, hn⟩]
  · rw [cache_nuccore, if_neg]
    intro hcon
    exact Bool.false_ne_true hcon.1
  · exact fsWrite_find_of_exists nuc (stem ++ ".json") records hn
  · rw [cache_taxonomy, if_pos ⟨rfl, ht⟩]
  · rw [cache_taxonomy, if_neg]
    intro hcon
    exact Bool.false_ne_true hcon.1
  · exact fsWrite_find_of_exists tax (toString tid ++ ".json") record ht

/-- Witness for C7 at a concrete populated cache. -/
theorem cache_overwrite_policy_witness :
    cache_nuccore wNuccoreDir "new-records" "tm" true = .error .fileExists ∧
    cache_taxonomy wTaxonomyDir "new-taxonomy" 12242 true =
      .error .fileExists :=
  ⟨(cache_overwrite_policy wNuccoreDir wTaxonomyDir "new-records"
      "new-taxonomy" "tm" 12242 (by decide) (by decide)).1,
   (cache_overwrite_policy wNuccoreDir wTaxonomyDir "new-records"
      "new-taxonomy" "tm" 12242 (by decide) (by decide)).2.2.1⟩

/-- C8: the `multipartite` flag of an OTU schema is true exactly when the
schema holds at least two segments; it is a computed field of `OTUSchema`,
derived from the `segments` mapping and not stored. -/
theorem multipartite_iff_two_segments (s : OTUSchema) :
    s.multipartite = true ↔ 2 ≤ s.segments.length := by
  rw [OTUSchema.multipartite]
  split
  · rename_i h
    simp only [Bool.false_eq_true, false_iff]
    omega
  · rename_i h
    simp only [true_iff]
    omega

/-- C9: a GenBank payload accepted by `NCBINuccore` model validation yields
a record whose sequence is the Python-uppercase of the raw
`GBSeq_sequence`, and that sequence holds no lower-case codepoint. -/
theorem nuccore_sequence_uppercase (raw : RawGBSeq) (rec : NCBINuccore)
    (h : parseNuccore raw = some rec) :
    rec.sequence = pyUpper raw.sequence ∧
      ∀ c ∈ rec.sequence, ¬ (97 ≤ c ∧ c ≤ 122) := by
  rw [parseNuccore] at h
  split at h
  · exact absurd h (by simp)
  · rename_i source hsrc
    injection h with h
    subst h
    refine ⟨rfl, ?_⟩
    intro c hc
    simp only [pyUpper, List.mem_map] at hc
    obtain ⟨c0, _, rfl⟩ := hc
    rw [upCode]
    split <;> omega

/-- Witness for C9 at a concrete lower-case payload. -/
theorem nuccore_sequence_uppercase_witness :
    parseNuccore wRawGB = some wNuccore ∧
      wNuccore.sequence = pyUpper wRawGB.sequence :=
  ⟨by decide, (nuccore_sequence_uppercase wRawGB wNuccore (by decide)).1⟩

/-- The projector's fold reads only the timestamp-free core of an event. -/
theorem applyEvent_congr (s : RepoState) (e1 e2 : Event) (hid : e1.id = e2.id)
    (hq : e1.query = e2.query) (hd : e1.data = e2.data) :
    applyEvent s e1 = applyEvent s e2 := by
  obtain ⟨i1, t1, q1, d1⟩ := e1
  obtain ⟨i2, t2, q2, d2⟩ := e2
  simp only at hid hq hd
  subst hid hq hd
  rfl

/-- Replay from any state is a function of the core event sequence. -/
theorem projectFrom_core_congr (es1 es2 : List Event)
    (h : es1.map Event.core = es2.map Event.core) (s : RepoState) :
    projectFrom s es1 = projectFrom s es2 := by
  induction es1 generalizing es2 s with
  | nil =>
    cases es2 with
    | nil => rfl
    | cons b bs => simp at h
  | cons a as ih =>
    cases es2 with
    | nil => simp at h
    | cons b bs =>
      simp only [List.map_cons, List.cons.injEq] at h
      obtain ⟨hcore, htail⟩ := h
      have hid : a.id = b.id := congrArg EventCore.id hcore
      have hq : a.query = b.query := congrArg EventCore.query hcore
      have hd : a.data = b.data := congrArg EventCore.data hcore
      rw [projectFrom, projectFrom, applyEvent_congr s a b hid hq hd]
      cases applyEvent s b with
      | ok s2 => exact ih bs htail s2
      | error er => rfl

/-- C1: replay is deterministic — the state reconstructed by folding the
projector over a persisted log is a pure function of the ordered event
records (their ids, queries and payloads); it does not depend on when the
events were written or when the fold is run, so replaying the same log
twice yields structurally equal aggregates. -/
theorem replay_deterministic (es1 es2 : List Event)
    (h : es1.map Event.core = es2.map Event.core) :
    projectAll es1 = projectAll es2 ∧ projectAll es1 = projectAll es1 :=
  ⟨projectFrom_core_congr es1 es2 h emptyState, rfl⟩

/-- Witness for C1: the fixture log replayed next to a copy of itself
persisted a thousand ticks later. -/
theorem replay_deterministic_witness :
    projectAll wEvents = projectAll wEventsLater :=
  (replay_deterministic wEvents wEventsLater (by decide)).1

/-- The events of an appended repository are the old log plus one record
carrying the next sequential id. -/
theorem appendEvent_events (r : Repo) (ts : Nat) (q : EventQuery)
    (d : EventData) :
    (r.appendEvent ts q d).events =
      r.events ++ [⟨r.lastId + 1, ts, q, d⟩] := rfl

/-- Appending one event advances the highest persisted id by exactly
one. -/
theorem lastId_appendEvent (r : Repo) (ts : Nat) (q : EventQuery)
    (d : EventData) : (r.appendEvent ts q d).lastId = r.lastId + 1 := by
  rw [Repo.lastId, appendEvent_events, List.foldl_append]
  rw [show (r.events.foldl (fun m e => max m e.id) 0) = r.lastId from rfl]
  simp only [List.foldl_cons, List.foldl_nil]
  omega

/-- A successful `create_otu` call appends exactly one event. -/
theorem create_otu_ok_shape (r : Repo) (ts u : Nat) (acr : String)
    (lid : Option String) (name : String) (sch : Option OTUSchema)
    (tax : Nat) (r2 : Repo) (o : RepoOTU)
    (h : r.create_otu ts u acr lid name sch tax = .ok (r2, o)) :
    ∃ q d, r2 = r.appendEvent ts q d := by
  rw [Repo.create_otu] at h
  repeat' split at h
  all_goals simp only [Except.ok.injEq, Prod.mk.injEq, reduceCtorEq] at h
  all_goals exact ⟨_, _, h.1.symm⟩

/-- A successful `create_isolate` call appends exactly one event. -/
theorem create_isolate_ok_shape (r : Repo) (ts u oid : Nat)
    (lid : Option String) (sname : String) (stype : IsolateNameType)
    (r2 : Repo) (iso : RepoIsolate)
    (h : r.create_isolate ts u oid lid sname stype = .ok (r2, iso)) :
    ∃ q d, r2 = r.appendEvent ts q d := by
  rw [Repo.create_isolate] at h
  repeat' split at h
  all_goals simp only [Except.ok.injEq, Prod.mk.injEq, reduceCtorEq] at h
  all_goals exact ⟨_, _, h.1.symm⟩

/-- A successful `create_sequence` call appends exactly one event. -/
theorem create_sequence_ok_shape (r : Repo) (ts u oid iid : Nat)
    (acc defn : String) (lid : Option String) (seg seq : String)
    (r2 : Repo) (sq : RepoSequence)
    (h : r.create_sequence ts u oid iid acc defn lid seg seq =
      .ok (r2, sq)) :
    ∃ q d, r2 = r.appendEvent ts q d := by
  rw [Repo.create_sequence] at h
  repeat' split at h
  all_goals simp only [Except.ok.injEq, Prod.mk.injEq, reduceCtorEq] at h
  all_goals exact ⟨_, _, h.1.symm⟩

/-- A successful `exclude_accession` call appends exactly one event. -/
theorem exclude_accession_ok_shape (r : Repo) (ts oid : Nat) (acc : String)
    (r2 : Repo) (h : r.exclude_accession ts oid acc = .ok r2) :
    ∃ q d, r2 = r.appendEvent ts q d := by
  rw [Repo.exclude_accession] at h
  repeat' split at h
  all_goals simp only [Except.ok.injEq, reduceCtorEq] at h
  all_goals exact ⟨_, _, h.symm⟩

/-- Every successful mutating call advances `last_id` by exactly one. -/
theorem runOp_ok_lastId (r : Repo) (ts : Nat) (op : MutOp) (r2 : Repo)
    (h : runOp r ts op = .ok r2) : r2.lastId = r.lastId + 1 := by
  cases op with
  | createOTU u acr lid name sch tax =>
    rw [runOp] at h
    split at h
    · rename_i r3 o hco
      injection h with h
      subst h
      obtain ⟨q, d, hsh⟩ :=
        create_otu_ok_shape r ts u acr lid name sch tax r3 o hco
      rw [hsh, lastId_appendEvent]
    · exact absurd h (by simp)
  | createIsolate u oid lid sname stype =>
    rw [runOp] at h
    split at h
    · rename_i r3 iso hco
      injection h with h
      subst h
      obtain ⟨q, d, hsh⟩ :=
        create_isolate_ok_shape r ts u oid lid sname stype r3 iso hco
      rw [hsh, lastId_appendEvent]
    · exact absurd h (by simp)
  | createSequence u oid iid acc defn lid seg seq =>
    rw [runOp] at h
    split at h
    · rename_i r3 sq hco
      injection h with h
      subst h
      obtain ⟨q, d, hsh⟩ :=
        create_sequence_ok_shape r ts u oid iid acc defn lid seg seq r3 sq hco
      rw [hsh, lastId_appendEvent]
    · exact absurd h (by simp)
  | excludeAccession oid acc =>
    rw [runOp] at h
    split at h
    · rename_i r3 hco
      injection h with h
      subst h
      obtain ⟨q, d, hsh⟩ := exclude_accession_ok_shape r ts oid acc r3 hco
      rw [hsh, lastId_appendEvent]
    · exact absurd h (by simp)

/-- Folding mutating calls over a repository raises `last_id` by the number
of successful calls; failed calls contribute nothing. -/
theorem runOps_lastId (ops : List (Nat × MutOp)) : ∀ r : Repo,
    (runOps r ops).1.lastId = r.lastId + (runOps r ops).2 := by
  induction ops with
  | nil => intro r; rfl
  | cons p rest ih =>
    intro r
    obtain ⟨ts, op⟩ := p
    rw [runOps]
    cases hop : runOp r ts op with
    | ok r2 =>
      have hstep := runOp_ok_lastId r ts op r2 hop
      have htail := ih r2
      simp only
      omega
    | error e =>
      simp only
      exact ih r

/-- C2: a freshly created repository has `last_id = 1` (the reserved
metadata event), after `N` successful mutating calls `last_id = N + 1`, and
a mutating call that fails leaves the event log and `last_id` unchanged. -/
theorem lastId_after_ops (ts : Nat) (dt nm org : String)
    (ops : List (Nat × MutOp)) (r : Repo) (ts2 : Nat) (op : MutOp)
    (e : RepoError) :
    (Repo.new ts dt nm org).lastId = 1 ∧
    (runOps (Repo.new ts dt nm org) ops).1.lastId =
      (runOps (Repo.new ts dt nm org) ops).2 + 1 ∧
    (runOp r ts2 op = .error e →
      applyOp r ts2 op = r ∧ (applyOp r ts2 op).events = r.events) := by
  refine ⟨rfl, ?_, ?_⟩
  · have h := runOps_lastId ops (Repo.new ts dt nm org)
    have hnew : (Repo.new ts dt nm org).lastId = 1 := rfl
    omega
  · intro herr
    rw [applyOp, herr]
    exact ⟨rfl, rfl⟩

/-- Witness for C2: three concrete calls on a fresh repository, the second
a duplicate-name failure. -/
theorem lastId_after_ops_witness :
    (runOps (Repo.new 0 "genome" "Generic Viruses" "virus")
      [(1, .createOTU 100 "TMV" none "Tobacco mosaic virus" none 12242),
       (2, .createOTU 101 "X" none "Tobacco mosaic virus" none 438782),
       (3, .excludeAccession 100 "GROK")]).1.lastId =
      (runOps (Repo.new 0 "genome" "Generic Viruses" "virus")
        [(1, .createOTU 100 "TMV" none "Tobacco mosaic virus" none 12242),
         (2, .createOTU 101 "X" none "Tobacco mosaic virus" none 438782),
         (3, .excludeAccession 100 "GROK")]).2 + 1 ∧
    applyOp wRepo 9
      (.createOTU 101 "X" none "Tobacco mosaic virus" none 438782) = wRepo :=
  ⟨(lastId_after_ops 0 "genome" "Generic Viruses" "virus"
      [(1, .createOTU 100 "TMV" none "Tobacco mosaic virus" none 12242),
       (2, .createOTU 101 "X" none "Tobacco mosaic virus" none 438782),
       (3, .excludeAccession 100 "GROK")] wRepo 9
      (.createOTU 101 "X" none "Tobacco mosaic virus" none 438782)
      (.otuNameExists "Tobacco mosaic virus")).2.1,
   ((lastId_after_ops 0 "genome" "Generic Viruses" "virus"
      [(1, .createOTU 100 "TMV" none "Tobacco mosaic virus" none 12242),
       (2, .createOTU 101 "X" none "Tobacco mosaic virus" none 438782),
       (3, .excludeAccession 100 "GROK")] wRepo 9
      (.createOTU 101 "X" none "Tobacco mosaic virus" none 438782)
      (.otuNameExists "Tobacco mosaic virus")).2.2 (by decide)).1⟩

/-- C3: `create_otu` fails with an error carrying the offending name when
the supplied name matches an existing OTU, and with an error carrying the
offending legacy id when the supplied non-null legacy id matches an
existing OTU; a failed call leaves the repository (its log, `last_id` and
OTU set) unchanged. -/
theorem create_otu_duplicate (r : Repo) (ts u : Nat) (acr : String)
    (lid : Option String) (name : String) (sch : Option OTUSchema)
    (tax : Nat) (s : RepoState) (hs : r.state = .ok s) :
    ((s.otus.any fun o => o.name = name) = true →
      r.create_otu ts u acr lid name sch tax = .error (.otuNameExists name) ∧
      applyOp r ts (.createOTU u acr lid name sch tax) = r) ∧
    (∀ l, lid = some l →
      (s.otus.any fun o => o.name = name) = false →
      (s.otus.any fun o => o.legacy_id = some l) = true →
      r.create_otu ts u acr lid name sch tax =
        .error (.otuLegacyIdExists l) ∧
      applyOp r ts (.createOTU u acr lid name sch tax) = r) := by
  constructor
  · intro hdup
    have herr :
        r.create_otu ts u acr lid name sch tax =
          .error (.otuNameExists name) := by
      rw [Repo.create_otu, hs]
      simp only [hdup, if_true]
    refine ⟨herr, ?_⟩
    rw [applyOp, runOp, herr]
  · intro l hl hname hleg
    subst hl
    have herr :
        r.create_otu ts u acr (some l) name sch tax =
          .error (.otuLegacyIdExists l) := by
      rw [Repo.create_otu, hs]
      simp only [hname, Bool.false_eq_true, if_false, hleg, if_true]
    refine ⟨herr, ?_⟩
    rw [applyOp, runOp, herr]

/-- Witness for C3: duplicating the fixture OTU's name, then its legacy
id. -/
theorem create_otu_duplicate_witness :
    wRepo.create_otu 9 101 "" none "Tobacco mosaic virus" none 438782 =
      .error (.otuNameExists "Tobacco mosaic virus") ∧
    wRepo.create_otu 9 101 "" (some "abcd1234") "Abaca bunchy top virus" none
      438782 = .error (.otuLegacyIdExists "abcd1234") :=
  ⟨((create_otu_duplicate wRepo 9 101 "" none "Tobacco mosaic virus" none
      438782 wState (by decide)).1 (by decide)).1,
   ((create_otu_duplicate wRepo 9 101 "" (some "abcd1234")
      "Abaca bunchy top virus" none 438782 wState (by decide)).2 "abcd1234"
      rfl (by decide) (by decide)).1⟩

/-- C4: in any projected OTU aggregate, membership in the derived
`accessions` set is exactly having a sequence with that accession in some
isolate, and membership in the derived `blocked_accessions` set is exactly
membership in `accessions` or in `excluded_accessions`; both sets are
computed from the aggregate on demand, not stored. -/
theorem accessions_derived (es : List Event) (s : RepoState)
    (hs : projectAll es = .ok s) (otu : RepoOTU) (ho : otu ∈ s.otus)
    (a : String) :
    (a ∈ otu.accessions ↔
      ∃ iso ∈ otu.isolates, ∃ sq ∈ iso.sequences, sq.accession = a) ∧
    (a ∈ otu.blocked_accessions ↔
      a ∈ otu.accessions ∨ a ∈ otu.excluded_accessions) := by
  constructor
  · rw [RepoOTU.accessions]
    simp only [List.mem_flatMap, List.mem_map]
  · rw [RepoOTU.blocked_accessions]
    exact List.mem_append

/-- Witness for C4 at the fixture state: `TMVABC` is held, `GROK` is
blocked only through exclusion. -/
theorem accessions_derived_witness :
    ("GROK" ∈ wOTU.blocked_accessions ↔
      "GROK" ∈ wOTU.accessions ∨ "GROK" ∈ wOTU.excluded_accessions) :=
  (accessions_derived wEvents wState (by decide) wOTU (by decide) "GROK").2

/-- The inserted element is a member of the insert-if-absent result. -/
theorem mem_insertSet_self (a : String) (l : List String) :
    a ∈ insertSet a l := by
  rw [insertSet]
  split
  · assumption
  · simp

/-- Inserting an element already present is a no-op. -/
theorem insertSet_of_mem {a : String} {l : List String} (h : a ∈ l) :
    insertSet a l = l := by
  rw [insertSet, if_pos h]

/-- An OTU found by UUID carries that UUID. -/
theorem findOTU_some_id (l : List RepoOTU) (oid : Nat) (o : RepoOTU)
    (h : findOTU l oid = some o) : o.id = oid := by
  induction l with
  | nil => simp [findOTU] at h
  | cons p rest ih =>
    rw [findOTU] at h
    split at h
    · rename_i hp
      injection h with h
      subst h
      exact hp
    · exact ih h

/-- Rewriting the found OTU succeeds and afterwards the lookup returns the
rewritten aggregate. -/
theorem updateOTU_ok_of_find (eid oid : Nat)
    (f : RepoOTU → Except ProjError RepoOTU) (l : List RepoOTU)
    (o o2 : RepoOTU) (hfind : findOTU l oid = some o) (hf : f o = .ok o2)
    (hid : o2.id = oid) :
    ∃ l2, updateOTU eid l oid f = .ok l2 ∧ findOTU l2 oid = some o2 := by
  induction l with
  | nil => simp [findOTU] at hfind
  | cons p rest ih =>
    rw [findOTU] at hfind
    rw [updateOTU]
    split at hfind
    · rename_i hp
      injection hfind with hfind
      subst hfind
      rw [if_pos hp, hf]
      exact ⟨o2 :: rest, rfl, by rw [findOTU, if_pos hid]⟩
    · rename_i hp
      rw [if_neg hp]
      obtain ⟨l2, hl2, hfind2⟩ := ih hfind
      rw [hl2]
      refine ⟨p :: l2, rfl, ?_⟩
      rw [findOTU, if_neg hp]
      exact hfind2

/-- A rewrite that fixes the found OTU leaves the OTU list untouched. -/
theorem updateOTU_ok_self (eid oid : Nat)
    (f : RepoOTU → Except ProjError RepoOTU) (l : List RepoOTU) (o : RepoOTU)
    (hfind : findOTU l oid = some o) (hf : f o = .ok o) :
    updateOTU eid l oid f = .ok l := by
  induction l with
  | nil => simp [findOTU] at hfind
  | cons p rest ih =>
    rw [findOTU] at hfind
    rw [updateOTU]
    split at hfind
    · rename_i hp
      injection hfind with hfind
      subst hfind
      rw [if_pos hp, hf]
    · rename_i hp
      rw [if_neg hp, ih hfind]

/-- Replay distributes over log concatenation. -/
theorem projectFrom_append (l1 l2 : List Event) (s : RepoState) :
    projectFrom s (l1 ++ l2) =
      match projectFrom s l1 with
      | .ok s2 => projectFrom s2 l2
      | .error e => .error e := by
  induction l1 generalizing s with
  | nil => rw [List.nil_append]; rfl
  | cons e es ih =>
    simp only [List.cons_append, projectFrom]
    cases happ : applyEvent s e with
    | ok s2 => exact ih s2
    | error er => rfl

/-- The snapshot after appending one event is the old snapshot with that
event applied. -/
theorem state_appendEvent (r : Repo) (ts : Nat) (q : EventQuery)
    (d : EventData) (s : RepoState) (hs : r.state = .ok s) :
    (r.appendEvent ts q d).state =
      applyEvent s ⟨r.lastId + 1, ts, q, d⟩ := by
  rw [Repo.state, projectAll] at hs
  rw [Repo.state, appendEvent_events, projectAll, projectFrom_append, hs]
  show projectFrom s [_] = _
  simp only [projectFrom]
  cases happ : applyEvent s ⟨r.lastId + 1, ts, q, d⟩ with
  | ok s2 => rfl
  | error er => rfl

/-- The projector case for an exclusion event. -/
theorem applyEvent_exclude (s : RepoState) (eid ts oid : Nat)
    (acc : String) :
    applyEvent s ⟨eid, ts,
        { otu_id := some oid, isolate_id := none, sequence_id := none },
        .excludeAccession acc⟩ =
      match updateOTU eid s.otus oid (fun o =>
          .ok { o with excluded_accessions :=
            (insertSet acc o.excluded_accessions) }) with
      | .ok otus2 => .ok { s with otus := otus2 }
      | .error er => .error er := rfl

/-- Inversion of a successful `exclude_accession` call. -/
theorem exclude_ok_inv (r : Repo) (ts oid : Nat) (acc : String) (r2 : Repo)
    (h : r.exclude_accession ts oid acc = .ok r2) :
    ∃ s o, r.state = .ok s ∧ findOTU s.otus oid = some o ∧
      r2 = r.appendEvent ts
        { otu_id := some oid, isolate_id := none, sequence_id := none }
        (.excludeAccession acc) := by
  rw [Repo.exclude_accession] at h
  split at h
  · exact absurd h (by simp)
  · rename_i s hs
    split at h
    · exact absurd h (by simp)
    · rename_i o hfind
      injection h with h
      exact ⟨s, o, hs, hfind, h.symm⟩

/-- C5: `exclude_accession` is idempotent at the state level — excluding
the same accession twice from an OTU yields the same projected OTU
aggregate as excluding it once, because the excluded set has set semantics
and re-excluding is a no-op. -/
theorem exclude_accession_idempotent (r0 r1 r2 : Repo) (ts1 ts2 oid : Nat)
    (acc : String)
    (h1 : r0.exclude_accession ts1 oid acc = .ok r1)
    (h2 : r1.exclude_accession ts2 oid acc = .ok r2) :
    r2.get_otu oid = r1.get_otu oid := by
  obtain ⟨s0, o0, hs0, hf0, hr1⟩ := exclude_ok_inv r0 ts1 oid acc r1 h1
  have ho0id := findOTU_some_id s0.otus oid o0 hf0
  obtain ⟨l1, hu1, hfind1⟩ :=
    updateOTU_ok_of_find (r0.lastId + 1) oid
      (fun o => .ok { o with excluded_accessions :=
        (insertSet acc o.excluded_accessions) })
      s0.otus o0
      { o0 with excluded_accessions := (insertSet acc o0.excluded_accessions) }
      hf0 rfl ho0id
  have hstate1 : r1.state = .ok { s0 with otus := l1 } := by
    rw [hr1, state_appendEvent r0 ts1 _ _ s0 hs0, applyEvent_exclude, hu1]
  obtain ⟨s1, o1, hs1, hf1, hr2⟩ := exclude_ok_inv r1 ts2 oid acc r2 h2
  have hseq : s1 = { s0 with otus := l1 } := by
    rw [hstate1] at hs1
    injection hs1 with hs1
    exact hs1.symm
  subst hseq
  have ho1 : o1 =
      { o0 with excluded_accessions :=
        (insertSet acc o0.excluded_accessions) } := by
    have h3 := hfind1.symm.trans hf1
    injection h3 with h3
    exact h3.symm
  have hmem : acc ∈ o1.excluded_accessions := by
    rw [ho1]
    exact mem_insertSet_self acc o0.excluded_accessions
  have hface :
      (fun o => Except.ok (ε := ProjError)
        { o with excluded_accessions :=
          (insertSet acc o.excluded_accessions) }) o1 = .ok o1 := by
    show Except.ok { o1 with excluded_accessions :=
      (insertSet acc o1.excluded_accessions) } = .ok o1
    rw [insertSet_of_mem hmem]
  have hu2 :=
    updateOTU_ok_self (r1.lastId + 1) oid
      (fun o => .ok { o with excluded_accessions :=
        (insertSet acc o.excluded_accessions) })
      _ o1 hf1 hface
  have hstate2 : r2.state = .ok { s0 with otus := l1 } := by
    rw [hr2, state_appendEvent r1 ts2 _ _ _ hs1, applyEvent_exclude, hu2]
  rw [Repo.get_otu, Repo.get_otu, hstate2, hs1]

/-- Witness for C5: excluding `TOK` twice on the fixture repository leaves
the projected OTU as after the first exclusion. -/
theorem exclude_accession_idempotent_witness :
    wRepoEx2.get_otu 100 = wRepoEx1.get_otu 100 :=
  exclude_accession_idempotent wRepo wRepoEx1 wRepoEx2 30 31 100 "TOK"
    (by decide) (by decide)

/-- An entry of an upserted dictionary is an old entry or the new
binding. -/
theorem upsertKV_sound (l : List (String × NCBIGenbank)) (k : String)
    (v : NCBIGenbank) (a : String) (rec : NCBIGenbank)
    (h : (a, rec) ∈ upsertKV l k v) :
    (a, rec) ∈ l ∨ (a = k ∧ rec = v) := by
  rw [upsertKV] at h
  split at h
  · obtain ⟨p, hp, hpe⟩ := List.mem_map.1 h
    by_cases hk : p.1 = k
    · rw [if_pos hk] at hpe
      injection hpe with h1 h2
      right
      exact ⟨h1.symm, h2.symm⟩
    · rw [if_neg hk] at hpe
      left
      rwa [hpe] at hp
  · rcases List.mem_append.1 h with h | h
    · left
      exact h
    · right
      rw [List.mem_singleton] at h
      injection h with h1 h2
      exact ⟨h1, h2⟩

/-- Inserting a record under its derived isolate name preserves bin
soundness. -/
theorem upsertBin_sound (records : List NCBIGenbank) (bins : RecordBins)
    (nm : IsolateName) (r : NCBIGenbank) (hr : r ∈ records)
    (hname : get_isolate_name r = some nm)
    (hsound : binsSound records bins) :
    binsSound records (upsertBin bins nm r) := by
  intro n bin hmem a rec hrec
  rw [upsertBin] at hmem
  split at hmem
  · obtain ⟨b, hb, hbe⟩ := List.mem_map.1 hmem
    obtain ⟨bn, bl⟩ := b
    by_cases hk : (bn, bl).1 = nm
    · rw [if_pos hk] at hbe
      injection hbe with h1 h2
      subst h1
      rw [← h2] at hrec
      rcases upsertKV_sound bl r.accession r a rec hrec with hin | ⟨ha, hv⟩
      · have hold := hsound bn bl hb a rec hin
        simp only at hk
        rw [hk] at hold
        exact hold
      · subst ha
        subst hv
        exact ⟨hr, rfl, hname⟩
    · rw [if_neg hk] at hbe
      rw [hbe] at hb
      exact hsound n bin hb a rec hrec
  · rcases List.mem_append.1 hmem with hmem | hmem
    · exact hsound n bin hmem a rec hrec
    · rw [List.mem_singleton] at hmem
      injection hmem with h1 h2
      subst h1
      rw [h2] at hrec
      rw [List.mem_singleton] at hrec
      injection hrec with h3 h4
      subst h4
      exact ⟨hr, h3.symm, hname⟩

/-- Every bin of `group_genbank_records_by_isolate` holds only input
records, keyed by accession, under their derived isolate names. -/
theorem group_sound (records : List NCBIGenbank) :
    binsSound records (group_genbank_records_by_isolate records) := by
  rw [group_genbank_records_by_isolate]
  suffices h : ∀ (l : List NCBIGenbank) (bins : RecordBins),
      (∀ r ∈ l, r ∈ records) → binsSound records bins →
      binsSound records (l.foldl
        (fun bins r =>
          match get_isolate_name r with
          | none => bins
          | some n => upsertBin bins n r)
        bins) by
    exact h records [] (fun r hr => hr) (fun n bin hmem => by simp at hmem)
  intro l
  induction l with
  | nil =>
    intro bins hsub hs
    simpa using hs
  | cons r rest ih =>
    intro bins hsub hs
    rw [List.foldl_cons]
    apply ih
    · intro x hx
      exact hsub x (List.mem_cons_of_mem r hx)
    · show binsSound records
        (match get_isolate_name r with
          | none => bins
          | some n => upsertBin bins n r)
      cases hn : get_isolate_name r with
      | none => exact hs
      | some n =>
        exact upsertBin_sound records bins n r
          (hsub r (List.mem_cons_self r rest)) hn hs

/-- C10: a GenBank record whose source sets none of the isolate, strain or
clone fields yields no isolate name when its refseq flag is false and is
then absent from every bin of the isolate index, while with the refseq flag
set it is binned under an isolate name of type refseq carrying the record's
accession. -/
theorem group_omits_nameless (rec : NCBIGenbank)
    (hiso : rec.source.isolate = none) (hstr : rec.source.strain = none)
    (hclo : rec.source.clone = none) :
    (rec.refseq = false → get_isolate_name rec = none) ∧
    (rec.refseq = true →
      get_isolate_name rec =
        some { type := .refseq, value := rec.accession }) ∧
    (rec.refseq = false → ∀ records n bin p,
      (n, bin) ∈ group_genbank_records_by_isolate records → p ∈ bin →
      p.2 ≠ rec) := by
  refine ⟨?_, ?_, ?_⟩
  · intro hrf
    simp [get_isolate_name, hiso, hstr, hclo, hrf]
  · intro hrf
    simp [get_isolate_name, hiso, hstr, hclo, hrf]
  · intro hrf records n bin p hbin hp heq
    have hg := group_sound records n bin hbin p.1 p.2 hp
    rw [heq] at hg
    have hnone : get_isolate_name rec = none := by
      simp [get_isolate_name, hiso, hstr, hclo, hrf]
    rw [hnone] at hg
    exact Option.noConfusion hg.2.2

/-- Witness for C10: a nameless non-RefSeq record is unnamed and stays out
of the index built over it, while a nameless RefSeq record is named by its
accession. -/
theorem group_omits_nameless_witness :
    get_isolate_name wNameless = none ∧
    get_isolate_name wRefseqRec =
      some { type := .refseq, value := "NC_1" } ∧
    (("NC_1", wRefseqRec) : String × NCBIGenbank).2 ≠ wNameless :=
  ⟨(group_omits_nameless wNameless rfl rfl rfl).1 rfl,
   (group_omits_nameless wRefseqRec rfl rfl rfl).2.1 rfl,
   (group_omits_nameless wNameless rfl rfl rfl).2.2 rfl
     [wNameless, wRefseqRec] { type := .refseq, value := "NC_1" }
     [("NC_1", wRefseqRec)] ("NC_1", wRefseqRec) (by decide) (by decide)⟩

/-- A sequence returned by a successful `create_sequence` call carries the
supplied accession. -/
theorem create_sequence_ok_accession (r : Repo) (ts u oid iid : Nat)
    (acc defn : String) (lid : Option String) (seg seq : String)
    (r2 : Repo) (sq : RepoSequence)
    (h : r.create_sequence ts u oid iid acc defn lid seg seq =
      .ok (r2, sq)) :
    sq.accession = acc := by
  rw [Repo.create_sequence] at h
  repeat' split at h
  all_goals simp only [Except.ok.injEq, Prod.mk.injEq, reduceCtorEq] at h
  all_goals rw [← h.2]

/-- Every accession the inner sequence loop adds comes from its input
accumulator or from a record of its bin. -/
theorem createSeqLoop_sound (otu : RepoOTU) (ts iid : Nat)
    (bin : List (String × NCBIGenbank)) :
    ∀ repo supply acc r2 sup2 out,
    createSeqLoop repo ts supply otu iid bin acc = .ok (r2, sup2, out) →
    ∀ a ∈ out, a ∈ acc ∨ ∃ p ∈ bin, p.2.accession = a := by
  induction bin with
  | nil =>
    intro repo supply acc r2 sup2 out h a ha
    rw [createSeqLoop] at h
    simp only [Except.ok.injEq, Prod.mk.injEq] at h
    left
    rw [← h.2.2] at ha
    exact ha
  | cons p rest ih =>
    intro repo supply acc r2 sup2 out h a ha
    obtain ⟨pa, prec⟩ := p
    rw [createSeqLoop] at h
    split at h
    · rcases ih repo supply acc r2 sup2 out h a ha with hl | ⟨q, hq, hqa⟩
      · left
        exact hl
      · right
        exact ⟨q, List.mem_cons_of_mem _ hq, hqa⟩
    · split at h
      · exact absurd h (by simp)
      · rename_i repo2 sq heq
        rcases ih repo2 (supply + 1) (acc ++ [sq.accession]) r2 sup2 out h a
            ha with hl | ⟨q, hq, hqa⟩
        · rcases List.mem_append.1 hl with hl | hl
          · left
            exact hl
          · right
            rw [List.mem_singleton] at hl
            refine ⟨(pa, prec), List.mem_cons_self _ _, ?_⟩
            rw [hl]
            exact (create_sequence_ok_accession repo ts supply otu.id iid
              prec.accession prec.definition none prec.source.segment
              prec.sequence repo2 sq heq).symm
        · right
          exact ⟨q, List.mem_cons_of_mem _ hq, hqa⟩

/-- Every accession the bin loop adds comes from its input accumulator or
from a record of one of its bins. -/
theorem createBinsLoop_sound (otu : RepoOTU) (ts : Nat) (bins : RecordBins) :
    ∀ repo supply acc r2 sup2 out,
    createBinsLoop repo ts supply otu bins acc = .ok (r2, sup2, out) →
    ∀ a ∈ out, a ∈ acc ∨ ∃ nb ∈ bins, ∃ p ∈ nb.2, p.2.accession = a := by
  induction bins with
  | nil =>
    intro repo supply acc r2 sup2 out h a ha
    rw [createBinsLoop] at h
    simp only [Except.ok.injEq, Prod.mk.injEq] at h
    left
    rw [← h.2.2] at ha
    exact ha
  | cons nb rest ih =>
    intro repo supply acc r2 sup2 out h a ha
    obtain ⟨n, bin⟩ := nb
    rw [createBinsLoop] at h
    split at h
    · exact absurd h (by simp)
    · rename_i repo2 supply2 iid heq1
      split at h
      · exact absurd h (by simp)
      · rename_i repo3 supply3 acc2 heq2
        rcases ih repo3 supply3 acc2 r2 sup2 out h a ha with
          hl | ⟨q, hq, p, hp, hpa⟩
        · rcases createSeqLoop_sound otu ts iid bin repo2 supply2 acc repo3
              supply3 acc2 heq2 a hl with hl2 | ⟨p, hp, hpa⟩
          · left
            exact hl2
          · right
            exact ⟨(n, bin), List.mem_cons_self _ _, p, hp, hpa⟩
        · right
          exact ⟨q, List.mem_cons_of_mem _ hq, p, hp, hpa⟩

/-- Membership in a sorted-insert result. -/
theorem mem_sortIns (a b : String) (l : List String) :
    a ∈ sortIns b l ↔ a = b ∨ a ∈ l := by
  induction l with
  | nil => simp [sortIns]
  | cons c rest ih =>
    rw [sortIns]
    split
    · simp [List.mem_cons]
    · rw [List.mem_cons, ih, List.mem_cons]
      tauto

/-- Sorting does not change membership. -/
theorem mem_sortStrings (a : String) (l : List String) :
    a ∈ sortStrings l ↔ a ∈ l := by
  induction l with
  | nil => rw [sortStrings]
  | cons b rest ih => rw [sortStrings, mem_sortIns, ih, List.mem_cons]

/-- Deduplication only drops elements. -/
theorem mem_dedup (a : String) (l : List String) (h : a ∈ dedup l) :
    a ∈ l := by
  induction l with
  | nil => exact absurd h (by rw [dedup]; exact List.not_mem_nil a)
  | cons b rest ih =>
    rw [dedup] at h
    rcases List.mem_cons.1 h with h | h
    · rw [h]
      exact List.mem_cons_self b rest
    · exact List.mem_cons_of_mem b (ih (List.mem_filter.1 h).1)

/-- C6: every accession reported as created by `add_sequences` was in the
requested accession list and outside the OTU snapshot's blocked set —
re-running the same import creates no sequence for an accession that is
already held or excluded. The NCBI client is any fetcher returning only
records whose accessions were requested. -/
theorem add_sequences_skips_blocked (repo : Repo) (ts supply : Nat)
    (otu : RepoOTU) (accessions : List String)
    (fetchFn : List String → List NCBIGenbank)
    (hf : ∀ l rec, rec ∈ fetchFn l → rec.accession ∈ l)
    (r2 : Repo) (created : List String)
    (h : add_sequences repo ts supply otu accessions fetchFn =
      .ok (r2, created)) :
    ∀ a ∈ created, a ∈ accessions ∧ ¬ a ∈ otu.blocked_accessions := by
  intro a ha
  rw [add_sequences] at h
  split at h
  · simp only [Except.ok.injEq, Prod.mk.injEq] at h
    rw [← h.2] at ha
    simp at ha
  · rw [file_and_create_sequences] at h
    split at h
    · exact absurd h (by simp)
    · rename_i repo3 sup3 out heq
      simp only [Except.ok.injEq, Prod.mk.injEq] at h
      rw [← h.2, mem_sortStrings] at ha
      rcases createBinsLoop_sound otu ts
          (group_genbank_records_by_isolate
            (fetchFn (fetch_list otu accessions)))
          repo supply [] repo3 sup3 out heq a ha with
        hl | ⟨nb, hnb, p, hp, hpa⟩
      · simp at hl
      · obtain ⟨n, bin⟩ := nb
        have hg := group_sound (fetchFn (fetch_list otu accessions)) n bin
          hnb p.1 p.2 hp
        have hacc := hf (fetch_list otu accessions) p.2 hg.1
        rw [hpa] at hacc
        rw [fetch_list] at hacc
        have hmem := List.mem_filter.1 hacc
        refine ⟨mem_dedup a accessions hmem.1, ?_⟩
        exact of_decide_eq_true hmem.2

/-- Witness for C6: importing `TMVABC` (held), `GROK` (excluded) and `N1`
(new) creates only `N1`. -/
theorem add_sequences_skips_blocked_witness :
    "N1" ∈ (["TMVABC", "GROK", "N1"] : List String) ∧
      ¬ "N1" ∈ wOTU.blocked_accessions :=
  add_sequences_skips_blocked wRepo 20 500 wOTU ["TMVABC", "GROK", "N1"]
    wFetch
    (by
      intro l rec hrec
      rw [wFetch] at hrec
      split at hrec
      · rename_i hmem
        rw [List.mem_singleton] at hrec
        subst hrec
        exact hmem
      · simp at hrec)
    wRepoAdd ["N1"] (by decide) "N1" (by decide)

end Virtool
